import Mathlib

/-!
# Verification of the `StorageValue` generator
  (frame/support/src/storage/generator/value.rs)

Shallow embedding of the Substrate `StorageValue` storage-generator module.

Modelling conventions:

* A byte is a `Nat`; a byte string is `List Nat` (`Bytes`).  None of the
  operations of the module depend on the `< 256` bound, so it is not carried.
* Every method of the generator addresses exactly one key, the 32-byte
  result of `storage_value_final_key`, so the external key-value store is
  represented by the payload stored at that single address:
  `Store := Option Bytes` (`none` = absent payload).
* The SCALE codec (`codec::FullCodec`) is external to the module; it is
  represented by an abstract `Codec` record (`encode`/`decode`) and, for
  sequence-shaped values, a `SeqCodec` record exposing the length prefix
  and the per-element encoding, with the round-trip laws taken as
  hypotheses where a theorem needs them.
* The `Twox128` hasher is external; `storage_value_final_key` is
  parameterized by an abstract 16-byte-output hash function.
* The Rust closure `F: FnOnce(&mut G::Query) -> Result<R, E>` of
  `try_mutate` is embedded as `Query → Except E R × Query`: the second
  component is the value left in the `&mut` cell when the closure returns.
* The uninhabited error type `Never` is `Empty`; the
  `.expect("`Never` can not be constructed; qed")` in `mutate` becomes an
  `Empty` elimination.
-/

set_option autoImplicit false

namespace Substrate

abbrev Byte := Nat
abbrev Bytes := List Byte

/-- The stored payload at the derived final key; `none` means absent. -/
abbrev Store := Option Bytes

/-- The uninhabited error type `crate::Never`. -/
abbrev Never := Empty

/-- Abstract SCALE codec for a value type `T` (external to the module:
`codec::FullCodec`).  `decode` returns `none` on malformed bytes. -/
structure Codec (T : Type) where
  encode : T → Bytes
  decode : Bytes → Option T

/-- The static data of one `StorageValue` generator instance: the two name
segments (`module_prefix` / `storage_prefix` in the source, renamed here)
and the two `Query` conversions of the trait. -/
structure StorageValue (T : Type) (Query : Type) where
  module_pfx : Bytes
  storage_pfx : Bytes
  from_optional_value_to_query : Option T → Query
  from_query_to_optional_value : Query → Option T

/-- `dst[start .. start+src.len()].copy_from_slice(src)` on byte strings. -/
def copy_from_slice (dst : Bytes) (start : Nat) (src : Bytes) : Bytes :=
  dst.take start ++ src ++ dst.drop (start + src.length)

/-- `storage_value_final_key`: a 32-byte buffer of zeroes whose first half
is overwritten with the hash of the module prefix and whose second half is
overwritten with the hash of the storage prefix (value.rs lines 48-53).
`hash16` abstracts the external `Twox128::hash`. -/
def storage_value_final_key {T Query : Type} (hash16 : Bytes → Bytes)
    (G : StorageValue T Query) : Bytes :=
  let final_key := List.replicate 32 0
  let final_key := copy_from_slice final_key 0 (hash16 G.module_pfx)
  let final_key := copy_from_slice final_key 16 (hash16 G.storage_pfx)
  final_key

namespace unhashed

/-- Modelled from the spec: `storage::unhashed::get_raw` (declared outside
src/), reading the raw optional payload at the address. -/
def get_raw (s : Store) : Option Bytes := s

/-- Modelled from the spec: `storage::unhashed::exists` (declared outside
src/), true iff the store holds a payload at the address. -/
def exists_ (s : Store) : Bool := s.isSome

/-- Modelled from the spec: `storage::unhashed::put_raw` (declared outside
src/), unconditionally overwriting the payload at the address. -/
def put_raw (_s : Store) (v : Bytes) : Store := some v

/-- Modelled from the spec: `storage::unhashed::kill` (declared outside
src/), deleting the payload at the address; idempotent. -/
def kill (_s : Store) : Store := none

/-- Modelled from the spec: `storage::unhashed::get` (declared outside
src/), reading the optional decoded payload with decode failure treated as
absence (spec 4.2: "decode failure treated as absent"). -/
def get {T : Type} (c : Codec T) (s : Store) : Option T :=
  s.bind c.decode

/-- Modelled from the spec: `storage::unhashed::put` (declared outside
src/), encoding the value and overwriting the payload at the address. -/
def put {T : Type} (c : Codec T) (s : Store) (v : T) : Store :=
  put_raw s (c.encode v)

end unhashed

namespace SV

variable {T Query : Type}

/-- `exists()` (value.rs lines 63-65). -/
def exists_ (s : Store) : Bool := unhashed.exists_ s

/-- `get()` (value.rs lines 67-70). -/
def get (G : StorageValue T Query) (c : Codec T) (s : Store) : Query :=
  G.from_optional_value_to_query (unhashed.get c s)

/-- `try_get()` (value.rs lines 72-74): `Result<T, ()>`. -/
def try_get (c : Codec T) (s : Store) : Except Unit T :=
  match unhashed.get c s with
  | some v => Except.ok v
  | none => Except.error ()

/-- `put(val)` (value.rs lines 93-95). -/
def put (c : Codec T) (s : Store) (val : T) : Store :=
  unhashed.put c s val

/-- `set(maybe_val)` (value.rs lines 97-103). -/
def set (G : StorageValue T Query) (c : Codec T) (s : Store)
    (maybe_val : Query) : Store :=
  match G.from_query_to_optional_value maybe_val with
  | some val => unhashed.put c s val
  | none => unhashed.kill s

/-- `kill()` (value.rs lines 105-107). -/
def kill (s : Store) : Store := unhashed.kill s

/-- `translate(f)` (value.rs lines 76-91): decode any existing payload as
the old format `O` (early-returning the decode error), apply `f`, commit
the result (`Some` → put raw encoding, `None` → kill), return it. -/
def translate {O : Type} (cO : Codec O) (c : Codec T)
    (f : Option O → Option T) (s : Store) :
    Except Unit (Option T) × Store :=
  let maybe_old : Except Unit (Option O) :=
    match unhashed.get_raw s with
    | some old_data =>
      match cO.decode old_data with
      | some o => Except.ok (some o)
      | none => Except.error ()
    | none => Except.ok none
  match maybe_old with
  | Except.error e => (Except.error e, s)
  | Except.ok old =>
    let maybe_new := f old
    let s2 :=
      match maybe_new with
      | some nw => unhashed.put_raw s (c.encode nw)
      | none => unhashed.kill s
    (Except.ok maybe_new, s2)

/-- `try_mutate(f)` (value.rs lines 113-124): read the Query via `get`,
run the closure, and commit the (possibly mutated) Query through
`from_query_to_optional_value` only when the closure returned `Ok`. -/
def try_mutate {R E : Type} (G : StorageValue T Query) (c : Codec T)
    (f : Query → Except E R × Query) (s : Store) : Except E R × Store :=
  let val := get G c s
  let (ret, val2) := f val
  let s2 :=
    if ret.isOk then
      match G.from_query_to_optional_value val2 with
      | some v => put c s v
      | none => kill s
    else s
  (ret, s2)

/-- `mutate(f)` (value.rs lines 109-111): `try_mutate` with the
uninhabited error type `Never`; the `Err` branch is eliminated. -/
def mutate {R : Type} (G : StorageValue T Query) (c : Codec T)
    (f : Query → R × Query) (s : Store) : R × Store :=
  match try_mutate G c
      (fun v => ((Except.ok (f v).1 : Except Never R), (f v).2)) s with
  | (Except.ok r, s2) => (r, s2)
  | (Except.error e, _) => e.elim

/-- `take()` (value.rs lines 126-133): read the optional decoded payload,
kill only when the decoded value is present, convert through the adapter. -/
def take (G : StorageValue T Query) (c : Codec T) (s : Store) :
    Query × Store :=
  let value := unhashed.get c s
  let s2 := if value.isSome then unhashed.kill s else s
  (G.from_optional_value_to_query value, s2)

end SV

/-- Abstract sequence-shaped encoding (external to the module): a length
prefix followed by per-element encodings (spec 3, 6).  The two decoders
consume a prefix of the byte string and return the remainder. -/
structure SeqCodec (Item : Type) where
  encodeLen : Nat → Bytes
  decodeLen : Bytes → Option (Nat × Bytes)
  encodeItem : Item → Bytes
  decodeItem : Bytes → Option (Item × Bytes)

/-- The length-prefix round-trip law of the external codec: decoding a
length prefix it produced yields the length and the remaining bytes. -/
def SeqCodec.LenLaw {Item : Type} (sc : SeqCodec Item) : Prop :=
  ∀ n rest, sc.decodeLen (sc.encodeLen n ++ rest) = some (n, rest)

/-- The element round-trip law of the external codec. -/
def SeqCodec.ItemLaw {Item : Type} (sc : SeqCodec Item) : Prop :=
  ∀ x rest, sc.decodeItem (sc.encodeItem x ++ rest) = some (x, rest)

/-- Concatenated encodings of a list of elements. -/
def encodeItems {Item : Type} (sc : SeqCodec Item) : List Item → Bytes
  | [] => []
  | x :: xs => sc.encodeItem x ++ encodeItems sc xs

/-- Decode exactly `n` elements from the front of a byte string. -/
def decodeItems {Item : Type} (sc : SeqCodec Item) :
    Nat → Bytes → Option (List Item × Bytes)
  | 0, b => some ([], b)
  | n + 1, b =>
    match sc.decodeItem b with
    | some (x, rest) =>
      match decodeItems sc n rest with
      | some (xs, r) => some (x :: xs, r)
      | none => none
    | none => none

/-- Decoding a payload as the full sequence type: read the length prefix,
then that many elements (trailing bytes are ignored, as SCALE decoding
does not require full consumption). -/
def decodeSeq {Item : Type} (sc : SeqCodec Item) (b : Bytes) :
    Option (List Item) :=
  match sc.decodeLen b with
  | some (n, rest) =>
    match decodeItems sc n rest with
    | some (xs, _) => some xs
    | none => none
  | none => none

/-- Modelled from the spec: the host function `sp_io::storage::append`
(outside src/), per spec 4.6 and 6 `append_raw`: append the encoded
element bytes to the payload and increment the length prefix in place;
when no payload exists, initialize a one-element payload with a length
prefix of one.  The behavior on a payload with a malformed length prefix
is not specified (spec 4.6 precondition); here it re-initializes, which
only matters outside the precondition. -/
def storage_append {Item : Type} (sc : SeqCodec Item) (s : Store)
    (itemBytes : Bytes) : Store :=
  match s with
  | none => some (sc.encodeLen 1 ++ itemBytes)
  | some data =>
    match sc.decodeLen data with
    | some (n, rest) => some (sc.encodeLen (n + 1) ++ rest ++ itemBytes)
    | none => some (sc.encodeLen 1 ++ itemBytes)

namespace SV

variable {Query : Type}

/-- `append(item)` (value.rs lines 135-143): encode the item alone and
hand it to the host append function at the final key. -/
def append {Item : Type} (sc : SeqCodec Item) (s : Store) (item : Item) :
    Store :=
  storage_append sc s (sc.encodeItem item)

/-- The error string of a failed length decode (`e.what()` of the codec
error in value.rs line 150). -/
def lengthDecodeError : String := "Could not decode the length"

/-- `decode_len()` (value.rs lines 145-158): if a raw payload exists,
decode only its length prefix (`<T as DecodeLength>::len`); otherwise
return the length of the value obtained by converting absence through the
adapter and back, or 0 when that is `None`.  For a sequence-shaped value
the stored type `T` is `List Item` and `Len::len` is `List.length`. -/
def decode_len {Item : Type} (G : StorageValue (List Item) Query)
    (sc : SeqCodec Item) (s : Store) : Except String Nat :=
  match unhashed.get_raw s with
  | some k =>
    match sc.decodeLen k with
    | some (n, _) => Except.ok n
    | none => Except.error lengthDecodeError
  | none =>
    let len :=
      ((G.from_query_to_optional_value
        (G.from_optional_value_to_query none)).map List.length).getD 0
    Except.ok len

/-- `append(item_1); …; append(item_n)` starting from `s`. -/
def appendAll {Item : Type} (sc : SeqCodec Item) (s : Store) :
    List Item → Store
  | [] => s
  | x :: xs => appendAll sc (append sc s x) xs

end SV

/-! ## Concrete instances used by the witness theorems -/

/-- Concrete codec: a `Nat` is encoded as a singleton byte string; any
byte string that is not a singleton is malformed. -/
def natCodec : Codec Nat where
  encode := fun n => [n]
  decode := fun b => match b with | [n] => some n | _ => none

/-- Concrete generator instance with an `OptionQuery`-style adapter:
`Query = Option T`, both conversions the identity. -/
def natSV : StorageValue Nat (Option Nat) where
  module_pfx := [65]
  storage_pfx := [66]
  from_optional_value_to_query := id
  from_query_to_optional_value := id

/-- Concrete generator instance for a list-valued storage item. -/
def listSV : StorageValue (List Nat) (Option (List Nat)) where
  module_pfx := [65]
  storage_pfx := [66]
  from_optional_value_to_query := id
  from_query_to_optional_value := id

/-- Concrete sequence codec: the length prefix is a single byte holding
the length, and each element is a single byte. -/
def natSeqCodec : SeqCodec Nat where
  encodeLen := fun n => [n]
  decodeLen := fun b => match b with | n :: r => some (n, r) | [] => none
  encodeItem := fun x => [x]
  decodeItem := fun b => match b with | x :: r => some (x, r) | [] => none

theorem natSeqCodec_lenLaw : natSeqCodec.LenLaw := fun _ _ => rfl

theorem natSeqCodec_itemLaw : natSeqCodec.ItemLaw := fun _ _ => rfl

/-! ## Helper lemmas -/

/-- Under the 16-byte-output assumption on the hasher, the final key is
the concatenation of the two segment hashes. -/
theorem final_key_eq {T Query : Type} (hash16 : Bytes → Bytes)
    (G : StorageValue T Query)
    (hm : (hash16 G.module_pfx).length = 16)
    (hs : (hash16 G.storage_pfx).length = 16) :
    storage_value_final_key hash16 G =
      hash16 G.module_pfx ++ hash16 G.storage_pfx := by
  have h1 : copy_from_slice (List.replicate 32 0) 0 (hash16 G.module_pfx)
      = hash16 G.module_pfx ++ List.replicate 16 0 := by
    simp [copy_from_slice, hm]
  have hd : List.drop (16 + 16) (hash16 G.module_pfx ++ List.replicate 16 0)
      = [] := List.drop_eq_nil_of_le (by simp [hm])
  have h2 : copy_from_slice
      (hash16 G.module_pfx ++ List.replicate 16 0) 16 (hash16 G.storage_pfx)
      = hash16 G.module_pfx ++ hash16 G.storage_pfx := by
    unfold copy_from_slice
    rw [List.take_left' hm, hs, hd, List.append_nil]
  show copy_from_slice (copy_from_slice (List.replicate 32 0) 0
      (hash16 G.module_pfx)) 16 (hash16 G.storage_pfx) = _
  rw [h1, h2]

/-- Appending a chain of items to a well-formed payload extends the body
and adds the chain's length to the length prefix. -/
theorem appendAll_some {Item : Type} (sc : SeqCodec Item)
    (hl : sc.LenLaw) (n : Nat) (body : Bytes) (xs : List Item) :
    SV.appendAll sc (some (sc.encodeLen n ++ body)) xs =
      some (sc.encodeLen (n + xs.length) ++ (body ++ encodeItems sc xs)) := by
  induction xs generalizing n body with
  | nil => simp [SV.appendAll, encodeItems]
  | cons x xs ih =>
    show SV.appendAll sc
        (SV.append sc (some (sc.encodeLen n ++ body)) x) xs = _
    rw [SV.append, storage_append, hl n body]
    dsimp only
    rw [List.append_assoc, ih (n + 1) (body ++ sc.encodeItem x)]
    have harith : n + 1 + xs.length = n + (xs.length + 1) := by omega
    simp [encodeItems, harith, List.append_assoc]

/-- Appending `x :: xs` to an absent payload yields the payload whose
length prefix is the chain's length and whose body is the concatenated
element encodings. -/
theorem appendAll_none {Item : Type} (sc : SeqCodec Item)
    (hl : sc.LenLaw) (x : Item) (xs : List Item) :
    SV.appendAll sc none (x :: xs) =
      some (sc.encodeLen (x :: xs).length ++ encodeItems sc (x :: xs)) := by
  show SV.appendAll sc (SV.append sc none x) xs = _
  rw [SV.append, storage_append]
  rw [appendAll_some sc hl 1 (sc.encodeItem x) xs]
  have harith : 1 + xs.length = xs.length + 1 := by omega
  simp [encodeItems, harith]

/-- Decoding back the concatenated element encodings yields the elements
and the untouched remainder. -/
theorem decodeItems_encodeItems {Item : Type} (sc : SeqCodec Item)
    (hi : sc.ItemLaw) (xs : List Item) (rest : Bytes) :
    decodeItems sc xs.length (encodeItems sc xs ++ rest) = some (xs, rest) := by
  induction xs generalizing rest with
  | nil => simp [decodeItems, encodeItems]
  | cons x xs ih =>
    show decodeItems sc (xs.length + 1)
        ((sc.encodeItem x ++ encodeItems sc xs) ++ rest) = _
    rw [List.append_assoc, decodeItems, hi x (encodeItems sc xs ++ rest)]
    dsimp only
    rw [ih]

/-- Decoding a well-formed payload as the full sequence type recovers the
element list. -/
theorem decodeSeq_encode {Item : Type} (sc : SeqCodec Item)
    (hl : sc.LenLaw) (hi : sc.ItemLaw) (xs : List Item) :
    decodeSeq sc (sc.encodeLen xs.length ++ encodeItems sc xs) = some xs := by
  have h := decodeItems_encodeItems sc hi xs []
  rw [List.append_nil] at h
  rw [decodeSeq, hl xs.length (encodeItems sc xs)]
  dsimp only
  rw [h]

/-! ## Claim theorems -/

/-- C1: `try_mutate(f)` returns the closure's result; when the closure
returns an error the stored payload is byte-identical to its state before
the call; when the closure returns `Ok` the resulting Query is committed
through `from_query_to_optional_value`, writing the encoded value when the
result is `Some` and deleting the payload when it is `None`. -/
theorem C1_try_mutate_atomicity {T Query R E : Type}
    (G : StorageValue T Query) (c : Codec T)
    (f : Query → Except E R × Query) (s : Store) :
    (SV.try_mutate G c f s).1 = (f (SV.get G c s)).1 ∧
    (∀ e : E, (f (SV.get G c s)).1 = Except.error e →
      SV.try_mutate G c f s = (Except.error e, s)) ∧
    (∀ r : R, (f (SV.get G c s)).1 = Except.ok r →
      SV.try_mutate G c f s = (Except.ok r,
        match G.from_query_to_optional_value (f (SV.get G c s)).2 with
        | some v => some (c.encode v)
        | none => none)) := by
  rcases hf : f (SV.get G c s) with ⟨ret, val2⟩
  refine ⟨by simp [SV.try_mutate, hf], ?_, ?_⟩
  · intro e he
    simp only at he
    subst he
    simp [SV.try_mutate, hf, Except.isOk, Except.toBool]
  · intro r hr
    simp only at hr
    subst hr
    cases hq : G.from_query_to_optional_value val2 with
    | none =>
      simp [SV.try_mutate, hf, hq, SV.kill, unhashed.kill, Except.isOk,
        Except.toBool]
    | some v =>
      simp [SV.try_mutate, hf, hq, SV.put, unhashed.put, unhashed.put_raw,
        Except.isOk, Except.toBool]

/-- Witness for C1: a concrete erroring closure leaves the concrete store
untouched and surfaces the error. -/
theorem C1_witness :
    SV.try_mutate natSV natCodec
      (fun q => ((Except.error 7 : Except Nat Nat), q)) (some [3]) =
      (Except.error 7, some [3]) :=
  (C1_try_mutate_atomicity natSV natCodec
    (fun q => ((Except.error 7 : Except Nat Nat), q)) (some [3])).2.1 7 rfl

/-- C2: the final key is 32 bytes; bytes [0,16) are the 16-byte hash of
the module prefix; bytes [16,32) are the 16-byte hash of the storage
prefix; the result is identical on repeated calls. -/
theorem C2_final_key_layout {T Query : Type} (hash16 : Bytes → Bytes)
    (G : StorageValue T Query)
    (hm : (hash16 G.module_pfx).length = 16)
    (hs : (hash16 G.storage_pfx).length = 16) :
    (storage_value_final_key hash16 G).length = 32 ∧
    (storage_value_final_key hash16 G).take 16 = hash16 G.module_pfx ∧
    (storage_value_final_key hash16 G).drop 16 = hash16 G.storage_pfx ∧
    storage_value_final_key hash16 G = storage_value_final_key hash16 G := by
  rw [final_key_eq hash16 G hm hs]
  exact ⟨by simp [hm, hs], List.take_left' hm, List.drop_left' hm, rfl⟩

/-- Witness for C2 at a concrete 16-byte-output hash function. -/
theorem C2_witness :
    (storage_value_final_key (fun b => List.replicate 16 b.length)
      natSV).length = 32 :=
  (C2_final_key_layout (fun b => List.replicate 16 b.length) natSV
    (by simp) (by simp)).1

/-- C3: after `put v`, `take` returns the Query wrapping `v` and deletes
the payload, so `exists` is false afterwards; on an absent payload `take`
returns the Query for `None` and leaves the store unchanged. -/
theorem C3_put_take {T Query : Type} (G : StorageValue T Query)
    (c : Codec T) (s : Store) (v : T)
    (hrt : c.decode (c.encode v) = some v) :
    SV.take G c (SV.put c s v) =
      (G.from_optional_value_to_query (some v), none) ∧
    SV.exists_ (SV.take G c (SV.put c s v)).2 = false ∧
    (s = none → SV.take G c s = (G.from_optional_value_to_query none, s)) := by
  have h1 : SV.take G c (SV.put c s v) =
      (G.from_optional_value_to_query (some v), none) := by
    simp [SV.take, SV.put, unhashed.get, unhashed.put, unhashed.put_raw,
      unhashed.kill, hrt]
  refine ⟨h1, by rw [h1]; rfl, ?_⟩
  rintro rfl
  simp [SV.take, unhashed.get]

/-- Witness for C3: putting 5 then taking returns 5 and clears storage. -/
theorem C3_witness :
    SV.take natSV natCodec (SV.put natCodec (some [9]) 5) = (some 5, none) :=
  (C3_put_take natSV natCodec (some [9]) 5 rfl).1

/-- C4: `get` is total: it returns the adapter applied to the optional
decoded payload, treating a decode failure exactly like absence, and
(being a total function of the store) never returns an error. -/
theorem C4_get_total {T Query : Type} (G : StorageValue T Query)
    (c : Codec T) (s : Store) :
    SV.get G c s = G.from_optional_value_to_query (s.bind c.decode) ∧
    (s = none → SV.get G c s = G.from_optional_value_to_query none) ∧
    (∀ b, s = some b → c.decode b = none →
      SV.get G c s = G.from_optional_value_to_query none) ∧
    (∀ b v, s = some b → c.decode b = some v →
      SV.get G c s = G.from_optional_value_to_query (some v)) := by
  refine ⟨rfl, ?_, ?_, ?_⟩
  · rintro rfl; rfl
  · rintro b rfl hb; simp [SV.get, unhashed.get, hb]
  · rintro b v rfl hb; simp [SV.get, unhashed.get, hb]

/-- Witness for C4: a malformed payload is read as the Query for `None`. -/
theorem C4_witness : SV.get natSV natCodec (some [1, 2]) = none :=
  (C4_get_total natSV natCodec (some [1, 2])).2.2.1 [1, 2] rfl rfl

/-- C5: `set q` writes `encode v` when the adapter maps `q` to `Some v`
and deletes the payload when it maps `q` to `None`; in particular, when
the adapter maps the default Query to `None`, `set default` leaves
`exists` false. -/
theorem C5_set_semantics {T Query : Type} (G : StorageValue T Query)
    (c : Codec T) (s : Store) (q : Query) :
    (∀ v, G.from_query_to_optional_value q = some v →
      SV.set G c s q = some (c.encode v)) ∧
    (G.from_query_to_optional_value q = none →
      SV.set G c s q = none ∧ SV.exists_ (SV.set G c s q) = false) := by
  constructor
  · intro v hv; simp [SV.set, hv, unhashed.put, unhashed.put_raw]
  · intro hq
    have h : SV.set G c s q = none := by simp [SV.set, hq, unhashed.kill]
    exact ⟨h, by rw [h]; rfl⟩

/-- Witness for C5: setting the `None`-mapped Query frees the slot. -/
theorem C5_witness :
    SV.set natSV natCodec (some [3]) none = none ∧
    SV.exists_ (SV.set natSV natCodec (some [3]) none) = false :=
  (C5_set_semantics natSV natCodec (some [3]) none).2 rfl

/-- C6: with a payload present, `decode_len` decodes only the length
prefix and returns it, failing exactly when the prefix is malformed (and
always succeeding on a well-formed prefix); with no payload it returns
the length of the `None`-round-tripped adapter value, or 0 when that is
`None`, without failing. -/
theorem C6_decode_len_semantics {Item Query : Type}
    (G : StorageValue (List Item) Query) (sc : SeqCodec Item) (s : Store) :
    (∀ b, s = some b → SV.decode_len G sc s =
      (match sc.decodeLen b with
       | some (n, _) => Except.ok n
       | none => Except.error SV.lengthDecodeError)) ∧
    (sc.LenLaw → ∀ n rest,
      SV.decode_len G sc (some (sc.encodeLen n ++ rest)) = Except.ok n) ∧
    (s = none → SV.decode_len G sc s = Except.ok
      (((G.from_query_to_optional_value
        (G.from_optional_value_to_query none)).map List.length).getD 0)) := by
  refine ⟨?_, ?_, ?_⟩
  · rintro b rfl; rfl
  · intro hl n rest
    simp [SV.decode_len, unhashed.get_raw, hl n rest]
  · rintro rfl; rfl

/-- Witness for C6: a payload with length prefix 2 reports length 2. -/
theorem C6_witness :
    SV.decode_len listSV natSeqCodec (some [2, 5, 7]) = Except.ok 2 :=
  (C6_decode_len_semantics listSV natSeqCodec (some [2, 5, 7])).1 [2, 5, 7] rfl

/-- C7: `translate f` fails, leaving the store unchanged, exactly when an
existing payload does not decode as the old format; otherwise it applies
`f` to the optional old value and commits the result, storing `encode t`
for `Some t` and deleting for `None`, returning `Ok` of the new value. -/
theorem C7_translate_semantics {O T : Type} (cO : Codec O) (c : Codec T)
    (f : Option O → Option T) (s : Store) :
    (∀ b, s = some b → cO.decode b = none →
      SV.translate cO c f s = (Except.error (), s)) ∧
    (∀ b o, s = some b → cO.decode b = some o →
      SV.translate cO c f s = (Except.ok (f (some o)),
        match f (some o) with
        | some t => some (c.encode t)
        | none => none)) ∧
    (s = none → SV.translate cO c f s = (Except.ok (f none),
        match f none with
        | some t => some (c.encode t)
        | none => none)) := by
  refine ⟨?_, ?_, ?_⟩
  · rintro b rfl hb
    simp [SV.translate, unhashed.get_raw, hb]
  · rintro b o rfl hb
    cases hfo : f (some o) <;>
      simp [SV.translate, unhashed.get_raw, hb, hfo, unhashed.put_raw,
        unhashed.kill]
  · rintro rfl
    cases hfo : f none <;>
      simp [SV.translate, unhashed.get_raw, hfo, unhashed.put_raw,
        unhashed.kill]

/-- Witness for C7: translating a stored 3 with the successor function
stores the encoding of 4 and returns it. -/
theorem C7_witness :
    SV.translate natCodec natCodec (fun o => o.map (fun n => n + 1))
      (some [3]) = (Except.ok (some 4), some [4]) :=
  (C7_translate_semantics natCodec natCodec
    (fun o => o.map (fun n => n + 1)) (some [3])).2.1 [3] 3 rfl rfl

/-- C8: starting from an absent payload, appending `item_1 … item_n`
(n ≥ 1, so that a payload results) and then calling `decode_len` returns
exactly `n`, and decoding the resulting payload as the full sequence type
yields `[item_1, …, item_n]` in order; stated under the round-trip laws
of the external sequence codec. -/
theorem C8_append_decode_len {Item Query : Type}
    (G : StorageValue (List Item) Query) (sc : SeqCodec Item)
    (items : List Item) (hl : sc.LenLaw) (hi : sc.ItemLaw)
    (hne : items ≠ []) :
    SV.decode_len G sc (SV.appendAll sc none items) =
      Except.ok items.length ∧
    (SV.appendAll sc none items).map (decodeSeq sc) = some (some items) := by
  obtain ⟨x, xs, rfl⟩ := List.exists_cons_of_ne_nil hne
  rw [appendAll_none sc hl x xs]
  constructor
  · have h3 := hl (xs.length + 1) (encodeItems sc (x :: xs))
    simp [SV.decode_len, unhashed.get_raw, h3]
  · simpa using decodeSeq_encode sc hl hi (x :: xs)

/-- Witness for C8: appending 5 then 7 to an empty slot yields length 2
and the payload decodes back to `[5, 7]`. -/
theorem C8_witness :
    SV.decode_len listSV natSeqCodec
      (SV.appendAll natSeqCodec none [5, 7]) = Except.ok 2 ∧
    (SV.appendAll natSeqCodec none [5, 7]).map (decodeSeq natSeqCodec) =
      some (some [5, 7]) :=
  C8_append_decode_len listSV natSeqCodec [5, 7]
    natSeqCodec_lenLaw natSeqCodec_itemLaw (by decide)

/-- C9: on a stored payload that fails to decode, `take` returns the
Query for `None` but does not delete: the malformed bytes remain stored
and `exists` is still true afterwards. -/
theorem C9_take_malformed {T Query : Type} (G : StorageValue T Query)
    (c : Codec T) (b : Bytes) (hb : c.decode b = none) :
    SV.take G c (some b) = (G.from_optional_value_to_query none, some b) ∧
    SV.exists_ (SV.take G c (some b)).2 = true := by
  have h : SV.take G c (some b) =
      (G.from_optional_value_to_query none, some b) := by
    simp [SV.take, unhashed.get, hb]
  exact ⟨h, by rw [h]; rfl⟩

/-- Witness for C9: the malformed payload `[1, 2]` survives `take`. -/
theorem C9_witness :
    SV.take natSV natCodec (some [1, 2]) = (none, some [1, 2]) ∧
    SV.exists_ (SV.take natSV natCodec (some [1, 2])).2 = true :=
  C9_take_malformed natSV natCodec [1, 2] rfl

/-- C10: `mutate(f)` never reaches its failure branch: the inner
`try_mutate` call returns `Ok` (the uninhabited `Never` error type makes
the `Err` case unreachable), so `mutate` always commits the closure's
Query through the `set` logic and returns exactly the value the closure
produced. -/
theorem C10_mutate_total {T Query R : Type} (G : StorageValue T Query)
    (c : Codec T) (f : Query → R × Query) (s : Store) :
    SV.mutate G c f s =
      ((f (SV.get G c s)).1, SV.set G c s (f (SV.get G c s)).2) ∧
    (SV.try_mutate G c
      (fun v => ((Except.ok (f v).1 : Except Never R), (f v).2)) s).1.isOk
      = true := by
  constructor
  · rcases hf : f (SV.get G c s) with ⟨r, q2⟩
    cases hq : G.from_query_to_optional_value q2 <;>
      simp [SV.mutate, SV.try_mutate, SV.set, SV.put, SV.kill, hf, hq,
        Except.isOk, Except.toBool]
  · simp [SV.try_mutate, Except.isOk, Except.toBool]

end Substrate
